import Mathlib

/-!
Verification development for the PythonMusicOrganizer repository
(src/music.py, src/organizer.py).

The definitions below are a shallow embedding of the functions of
src/music.py that the claims are about:

* `score_string_match`   (music.py lines 346-370),
* `clean_filename`       (music.py lines 204-229),
* the `MetaData` entity  (music.py lines 231-339),
* `process_aid_results`  (music.py lines 399-458),
* `mergeMetadata` and `search_online_metadata` (music.py lines 511-642),
* the `SaveState` progress tree (`update_path` / `get_state`,
  music.py lines 86-201).

Python strings are `List Char` (or `Option String` where a value may be
`None`), Python floats are `ℚ`, and a Python exception is `Option.none`
or `Except.error ()` depending on the function.
-/

/-! ## Python string primitives -/

/-- The whitespace characters below U+0100 stripped by Python `str.strip()`
(characters `c` with `c.isspace()`). -/
def isPySpace (c : Char) : Bool :=
  c ∈ [' ', '\t', '\n', '\r', Char.ofNat 11, Char.ofNat 12,
       Char.ofNat 28, Char.ofNat 29, Char.ofNat 30, Char.ofNat 31,
       Char.ofNat 133, Char.ofNat 160]

/-- Remove leading Python whitespace. -/
def stripL (l : List Char) : List Char := l.dropWhile isPySpace

/-- Remove trailing Python whitespace. -/
def stripR (l : List Char) : List Char := (l.reverse.dropWhile isPySpace).reverse

/-- Python `str.strip()`. -/
def pyStrip (l : List Char) : List Char := stripR (stripL l)

/-- Python `str.lower()` (ASCII model). -/
def pyLower (l : List Char) : List Char := l.map Char.toLower

/-- `s.lower().strip()` as used by `score_string_match`. -/
def pyNorm (s : String) : List Char := pyStrip (pyLower s.data)

/-! ## Multiset intersection size (`Counter(c) & Counter(t)`)

`sum((Counter(candidate) & Counter(target)).values())` is the size of the
multiset intersection: every character of `candidate` consumes at most one
matching occurrence of `target`. -/

def bagInterSize : List Char → List Char → Nat
  | [], _ => 0
  | c :: rest, t => if c ∈ t then bagInterSize rest (t.erase c) + 1 else bagInterSize rest t

/-! ## Levenshtein edit distance (`nltk.metrics.edit_distance`)

The standard Levenshtein recurrence (substitution cost 1, no
transpositions), written with a fuel argument so that the function is
structurally recursive: every recursive call decreases `s.length + t.length`,
so fuel `s.length + t.length + 1` always reaches a base case. -/

def levFuel : Nat → List Char → List Char → Nat
  | 0, _, _ => 0
  | _ + 1, [], t => t.length
  | _ + 1, a :: s, [] => (a :: s).length
  | n + 1, a :: s, b :: t =>
      min (levFuel n s (b :: t) + 1)
        (min (levFuel n (a :: s) t + 1)
          (levFuel n s t + (if a = b then 0 else 1)))

def edit_distance (s t : List Char) : Nat := levFuel (s.length + t.length + 1) s t

/-! ## score_string_match (music.py lines 346-370)

`none` models a `None` input; the result `none` models the
`ZeroDivisionError` raised at `intersection_size / target_size` when the
trimmed target is empty (and the strings are not equal). -/

def score_string_match (candidate target : Option String) : Option ℚ :=
  match candidate, target with
  | none, _ => some 0
  | some _, none => some 0
  | some c, some t =>
    let cl := pyNorm c
    let tl := pyNorm t
    if cl = tl then some 1
    else
      let intersectionSize := bagInterSize cl tl
      let targetSize := tl.length
      if targetSize = 0 then none
      else
        let intersectScore : ℚ := (intersectionSize : ℚ) / (targetSize : ℚ)
        let editDist := edit_distance tl cl
        let maxLen := max cl.length tl.length
        let editScore : ℚ := if maxLen = 0 then 1 else 1 - (editDist : ℚ) / (maxLen : ℚ)
        some ((intersectScore + editScore) / 2)

/-! ## clean_filename (music.py lines 204-229)

The Python function applies, in dictionary insertion order, a global
single-character replacement for each illegal character, then repeats
`name.replace('  ', ' ')` while the string contains two consecutive spaces,
and finally strips the result. -/

/-- Python `name.replace(k, v)` for a single-character pattern `k`. -/
def replaceChar (k : Char) (v : List Char) : List Char → List Char
  | [] => []
  | c :: rest => (if c = k then v else [c]) ++ replaceChar k v rest

/-- The `illegal_chars_replace_dict` of `clean_filename`, in insertion
order.  `Char.ofNat 39` is the single-quote character. -/
def replacementTable : List (Char × List Char) :=
  [ ('/', [' ', '-', ' ']),
    ('\\', [' ', '-', ' ']),
    ('?', []),
    ('%', []),
    ('*', []),
    (':', [' ', '-', ' ']),
    ('|', [' ', '-', ' ']),
    ('"', [Char.ofNat 39]),
    ('<', []),
    ('>', []),
    ('.', [' ']),
    ('\t', [' ']),
    ('\n', [' ']),
    ('\r', [' ']),
    ('&', ['a', 'n', 'd']) ]

/-- The `for k, v in illegal_chars_replace_dict.items(): name = name.replace(k, v)` loop. -/
def applyReplacements (l : List Char) : List Char :=
  replacementTable.foldl (fun acc kv => replaceChar kv.1 kv.2 acc) l

/-- The keys of `illegal_chars_replace_dict`: every character the function
replaces (the ten filesystem-illegal characters plus dot, tab, newline,
carriage return and ampersand). -/
def illegalKeys : List Char :=
  ['/', '\\', '?', '%', '*', ':', '|', '"', '<', '>', '.', '\t', '\n', '\r', '&']

/-- `'  ' in name`: the list contains two consecutive spaces. -/
def hasDS : List Char → Bool
  | c1 :: c2 :: rest => (c1 = ' ' && c2 = ' ') || hasDS (c2 :: rest)
  | _ => false

/-- One pass of `name.replace('  ', ' ')` (left to right, non-overlapping). -/
def collapseOnce : List Char → List Char
  | c1 :: c2 :: rest =>
      if c1 = ' ' && c2 = ' ' then ' ' :: collapseOnce rest
      else c1 :: collapseOnce (c2 :: rest)
  | l => l

/-- The `while '  ' in name` loop, with fuel: each pass strictly shrinks the
list, so `l.length` passes always suffice to reach the loop's exit test. -/
def collapseFuel : Nat → List Char → List Char
  | 0, l => l
  | n + 1, l => if hasDS l then collapseFuel n (collapseOnce l) else l

def collapse (l : List Char) : List Char := collapseFuel l.length l

def clean_filename (l : List Char) : List Char := pyStrip (collapse (applyReplacements l))

/-! ## MetaData (music.py lines 231-339)

Fields hold the raw `_artists`/`_album`/`_title`/`_year` attributes
(`none` models Python `None`).  The only validation in the constructor is
the `filetype` setter, which raises `ValueError` when the value is falsy
(empty string or `None`); `mkMetaData` takes the constructor's parameters
in source order and returns `Except.error ()` in exactly that case.  The
`artists`/`album`/`year` properties substitute the `Unknown ...` sentinels
on read. -/

structure MetaData where
  artists : Option String
  album : Option String
  title : Option String
  year : Option String
  filetype : String
deriving DecidableEq

/-- `MetaData.__init__(year, artists, album, title, filetype)`. -/
def mkMetaData (year artists album title filetype : Option String) : Except Unit MetaData :=
  match filetype with
  | none => Except.error ()
  | some ft => if ft = "" then Except.error () else Except.ok ⟨artists, album, title, year, ft⟩

/-- The `artists` property: `self._artists if self._artists is not None else 'Unknown Artist'`. -/
def MetaData.artistsP (m : MetaData) : String := m.artists.getD "Unknown Artist"

/-- The `album` property. -/
def MetaData.albumP (m : MetaData) : String := m.album.getD "Unknown Album"

/-- The `year` property. -/
def MetaData.yearP (m : MetaData) : String := m.year.getD "Unknown Year"

/-- The `artists` setter (`new_metadata.artists = value`). -/
def setArtists (m : MetaData) (v : Option String) : MetaData :=
  ⟨v, m.album, m.title, m.year, m.filetype⟩

/-- The `album` setter. -/
def setAlbum (m : MetaData) (v : Option String) : MetaData :=
  ⟨m.artists, v, m.title, m.year, m.filetype⟩

/-- The `title` setter. -/
def setTitle (m : MetaData) (v : Option String) : MetaData :=
  ⟨m.artists, m.album, v, m.year, m.filetype⟩

/-! ## Candidate matching helpers (music.py lines 511-551) -/

/-- `matchWithTargetMetadataArtist` (line 521): computes the string score
and returns a truthy value iff it reaches the threshold.  `none` models a
`ZeroDivisionError` escaping from `score_string_match`; Python's `None`
("no return") is falsy and is modelled as `some false`. -/
def matchWithTargetMetadataArtist (candidate target : Option String) (threshold : ℚ) : Option Bool :=
  match score_string_match candidate target with
  | none => none
  | some q => some (if threshold ≤ q then true else false)

/-- `matchWithTargetMetadataTitle` (line 527), same shape as the artist check. -/
def matchWithTargetMetadataTitle (candidate target : Option String) (threshold : ℚ) : Option Bool :=
  match score_string_match candidate target with
  | none => none
  | some q => some (if threshold ≤ q then true else false)

/-- `getValueIfNotNone` (line 511). -/
def getValueIfNotNone (s1 s2 : Option String) : Option String :=
  match s1, s2 with
  | none, none => none
  | none, some b => some b
  | some a, none => some a
  | some a, some _ => some a

/-- `mergeMetadata` (lines 537-551).  The merged fields are read through the
sentinel-substituting properties (`m1.artists` etc. are never `None` in
Python), and the result goes through the validating constructor, which can
raise if the merged filetype is empty. -/
def mergeMetadata (m1 m2 : Option MetaData) : Except Unit (Option MetaData) :=
  match m1, m2 with
  | none, none => Except.ok none
  | none, some m => Except.ok (some m)
  | some m, none => Except.ok (some m)
  | some a, some b =>
    match mkMetaData none
        (getValueIfNotNone (some a.artistsP) (some b.artistsP))
        (getValueIfNotNone (some a.albumP) (some b.albumP))
        (getValueIfNotNone a.title b.title)
        (getValueIfNotNone (some a.filetype) (some b.filetype)) with
    | Except.error e => Except.error e
    | Except.ok m => Except.ok (some m)

/-! ## search_online_metadata (music.py lines 553-642)

The function is parameterized by the outcome of the two external lookups:
`aid` is the AcoustID/MusicBrainz candidate (`none` when the try-block at
lines 559-571 caught an exception or found no match) and `shazam` is the
Shazam candidate (`none` when no match was found).  Each early-`return`
block of the Python function becomes a stage returning
`Except.ok (some result)`; `Except.ok none` means fall-through, and
`Except.error ()` models an uncaught Python exception
(`ZeroDivisionError` from scoring, `ValueError` from the constructor, or
the `AttributeError` at lines 633/636 when `aid_metadata` is `None`). -/

/-- Lines 581-582 and 627-628: backfill the album from the seed when the
candidate's album property is the `Unknown Album` sentinel. -/
def backfillAlbum (m og : MetaData) : MetaData :=
  if m.albumP = "Unknown Album" then setAlbum m (some og.albumP) else m

/-- Lines 574-585: accept the AcoustID candidate when both title and artist
match the seed at threshold 0.5. -/
def stage_aid_seed (og : MetaData) (aid : Option MetaData) :
    Except Unit (Option (Option MetaData × Bool)) :=
  match aid with
  | none => Except.ok none
  | some a =>
    match matchWithTargetMetadataTitle a.title og.title (1/2) with
    | none => Except.error ()
    | some mt =>
      match matchWithTargetMetadataArtist (some a.artistsP) (some og.artistsP) (1/2) with
      | none => Except.error ()
      | some ma =>
        if ma && mt then Except.ok (some (some (backfillAlbum a og), true))
        else Except.ok none

/-- Lines 597-606: cross-source agreement at threshold 0.7 (`and`
short-circuits: the title score is only computed when the artist check
succeeded), returning the merged record on success. -/
def stage_cross (aid shazam : Option MetaData) :
    Except Unit (Option (Option MetaData × Bool)) :=
  match aid, shazam with
  | some a, some s =>
    match matchWithTargetMetadataArtist (some a.artistsP) (some s.artistsP) (7/10) with
    | none => Except.error ()
    | some ca =>
      if ca then
        match matchWithTargetMetadataTitle a.title s.title (7/10) with
        | none => Except.error ()
        | some ct =>
          if ct then
            match mergeMetadata aid shazam with
            | Except.error e => Except.error e
            | Except.ok m => Except.ok (some (m, true))
          else Except.ok none
      else Except.ok none
  | _, _ => Except.ok none

/-- Lines 608-618: AcoustID partial update against the seed (artist checked
first), mutating `new_metadata` (the record built from the seed at line 556). -/
def stage_aid_solo (og new0 : MetaData) (aid : Option MetaData) :
    Except Unit (Option (Option MetaData × Bool)) :=
  match aid with
  | none => Except.ok none
  | some a =>
    match matchWithTargetMetadataTitle a.title og.title (1/2) with
    | none => Except.error ()
    | some mt =>
      match matchWithTargetMetadataArtist (some a.artistsP) (some og.artistsP) (1/2) with
      | none => Except.error ()
      | some ma =>
        if ma then Except.ok (some (some (setArtists new0 (some a.artistsP)), false))
        else if mt then Except.ok (some (some (setTitle new0 a.title), false))
        else Except.ok none

/-- Lines 620-640: the Shazam block.  Note that the two partial-update
branches at lines 633 and 636 read `aid_metadata` (the *AcoustID* record),
which is an `AttributeError` (`Except.error ()`) when Source A produced no
result. -/
def stage_shazam (og new0 : MetaData) (aid shazam : Option MetaData) :
    Except Unit (Option (Option MetaData × Bool)) :=
  match shazam with
  | none => Except.ok none
  | some s =>
    match matchWithTargetMetadataTitle s.title og.title (1/2) with
    | none => Except.error ()
    | some mt =>
      match matchWithTargetMetadataArtist (some s.artistsP) (some og.artistsP) (1/2) with
      | none => Except.error ()
      | some ma =>
        if ma && mt then Except.ok (some (some (backfillAlbum s og), true))
        else if ma then
          match aid with
          | none => Except.error ()
          | some a => Except.ok (some (some (setArtists new0 (some a.artistsP)), false))
        else if mt then
          match aid with
          | none => Except.error ()
          | some a => Except.ok (some (some (setTitle new0 a.title), false))
        else Except.ok none

/-- The four early-return blocks of `search_online_metadata` after
`new_metadata` has been built, in source order, ending in the
`return None, False` of line 642. -/
def searchBody (og new0 : MetaData) (aid shazam : Option MetaData) :
    Except Unit (Option MetaData × Bool) :=
  match stage_aid_seed og aid with
  | Except.error e => Except.error e
  | Except.ok (some r) => Except.ok r
  | Except.ok none =>
    match stage_cross aid shazam with
    | Except.error e => Except.error e
    | Except.ok (some r) => Except.ok r
    | Except.ok none =>
      match stage_aid_solo og new0 aid with
      | Except.error e => Except.error e
      | Except.ok (some r) => Except.ok r
      | Except.ok none =>
        match stage_shazam og new0 aid shazam with
        | Except.error e => Except.error e
        | Except.ok (some r) => Except.ok r
        | Except.ok none => Except.ok (none, false)

/-- The record built at line 556:
`MetaData(artists=og.artists, album=og.album, title=og.title, filetype=filetype)`
reads the seed through its properties, so `_artists`/`_album` carry the
sentinel-substituted strings while `_title` stays raw (possibly `None`). -/
def seedCopy (og : MetaData) (ft : String) : MetaData :=
  ⟨some og.artistsP, some og.albumP, og.title, none, ft⟩

/-- `search_online_metadata` (lines 553-642).  `ft` is the extension
computed from the file name at line 554; line 556 builds `new_metadata`
from the seed's property values (so its `_artists`/`_album` carry the
sentinel-substituted strings while `_title` is the raw, possibly-`None`
title), and the fall-through at line 642 returns `(None, False)`. -/
def search_online_metadata (og : MetaData) (ft : String) (aid shazam : Option MetaData) :
    Except Unit (Option MetaData × Bool) :=
  match mkMetaData none (some og.artistsP) (some og.albumP) og.title (some ft) with
  | Except.error e => Except.error e
  | Except.ok new0 => searchBody og new0 aid shazam

/-! ## process_aid_results (music.py lines 399-458)

A raw AcoustID candidate is a tuple
`(fingerprint confidence, recording id, title, artist)`.  The first loop
computes per-candidate similarity and combined scores (raising at the first
scoring exception); the second loop selects a candidate, comparing each raw
combined score against the *running* `combined_score` variable — which the
assignment at line 431 has already divided by 6.0. -/

structure ScoredCand where
  aidScore : ℚ
  rid : String
  title : Option String
  artist : Option String
  artistScore : ℚ
  titleScore : ℚ
  combinedScore : ℚ

/-- Score one candidate against the seed artist/title (lines 407-421). -/
def scoreCand (ogArtist ogTitle : Option String)
    (c : ℚ × String × Option String × Option String) : Option ScoredCand :=
  match c with
  | (aidS, rid, t, ar) =>
    match (match ogArtist with | none => some 0 | some _ => score_string_match ar ogArtist) with
    | none => none
    | some aS =>
      match (match ogTitle with | none => some 0 | some _ => score_string_match t ogTitle) with
      | none => none
      | some tS => some ⟨aidS, rid, t, ar, aS, tS, aidS + 2 * aS + 3 * tS⟩

/-- The first loop of `process_aid_results`. -/
def scoreCands (ogArtist ogTitle : Option String) :
    List (ℚ × String × Option String × Option String) → Option (List ScoredCand)
  | [] => some []
  | c :: rest =>
    match scoreCand ogArtist ogTitle c with
    | none => none
    | some sc =>
      match scoreCands ogArtist ogTitle rest with
      | none => none
      | some rest2 => some (sc :: rest2)

/-- The mutable selection state of the second loop (lines 401-404). -/
structure SelState where
  aidScore : ℚ
  artistScore : ℚ
  titleScore : ℚ
  combined : ℚ
  rid : Option String
  title : Option String
  artist : Option String

/-- One iteration of the selection loop (lines 423-431): the comparison uses
the raw candidate score, but the state's `combined` is updated with the
score already divided by 6.0. -/
def selStep (st : SelState) (c : ScoredCand) : SelState :=
  if st.combined < c.combinedScore then
    ⟨c.aidScore, c.artistScore, c.titleScore, c.combinedScore / 6, some c.rid, c.title, c.artist⟩
  else st

/-- `process_aid_results` (lines 399-458): `Except.error ()` models both the
propagated scoring exception and the `MatchError` raised when no candidate
was selected. -/
def process_aid_results (results : List (ℚ × String × Option String × Option String))
    (ogArtist ogTitle : Option String) : Except Unit (String × Option String × Option String) :=
  match scoreCands ogArtist ogTitle results with
  | none => Except.error ()
  | some scored =>
    let st := scored.foldl selStep ⟨0, 0, 0, 0, none, none, none⟩
    match st.rid with
    | none => Except.error ()
    | some r => Except.ok (r, st.title, st.artist)

/-! ## The SaveState progress tree (music.py lines 86-201)

A node of `processed_data`: `name`, `done`, the optional `copy_path`
(present on file nodes; absent and `None` are not distinguished, neither is
observable by `update_path`/`get_state`), and the `children` dict, modelled
as an association list in insertion order. -/

inductive PNode where
  | node (name : String) (done : Bool) (copyPath : Option String)
         (children : List (String × PNode))

def PNode.name : PNode → String
  | .node n _ _ _ => n

def PNode.done : PNode → Bool
  | .node _ d _ _ => d

def PNode.copyPath : PNode → Option String
  | .node _ _ cp _ => cp

def PNode.children : PNode → List (String × PNode)
  | .node _ _ _ cs => cs

/-- Python dict lookup `root['children'][piece]`. -/
def lookupChild : List (String × PNode) → String → Option PNode
  | [], _ => none
  | (k, v) :: rest, key => if k = key then some v else lookupChild rest key

/-- Python dict assignment `root['children'][piece] = v` (updates in place,
preserving insertion order; appends when the key is new). -/
def setChild : List (String × PNode) → String → PNode → List (String × PNode)
  | [], key, v => [(key, v)]
  | (k, w) :: rest, key, v =>
      if k = key then (key, v) :: rest else (k, w) :: setChild rest key v

/-- `init_child_dir` / `init_child_file` (lines 146-150): both create a node
with `done=False` and no children; `init_child_file` additionally stores
`copy_path=None`. -/
def initChild (nm : String) : PNode := PNode.node nm false none []

/-- The body of `if root['name'] == end:` inside `update_path`
(lines 167-183): optionally record the copy path, recompute `done` as
(existing flag or `mark_done`) and-ed with every child's `done` flag, and
prune the children when `prune_done` and the node became done. -/
def endUpdate (markDone isdir prune : Bool) (cp : Option String) (n : PNode) : PNode :=
  match n with
  | .node nm dn cpold cs =>
    let cpnew := if isdir = false && cp.isSome then cp else cpold
    let isDone := (dn || markDone) && cs.all (fun kv => kv.2.done)
    PNode.node nm isDone cpnew (if prune && isDone then [] else cs)

/-- The walk of `update_path` (lines 152-185): for each path piece, insert a
fresh child if missing, descend, and apply `endUpdate` at every node whose
name equals the path's last segment. -/
def updateWalk (markDone isdir prune : Bool) (cp : Option String) (endName : String) :
    List String → PNode → PNode
  | [], n => n
  | piece :: rest, n =>
    match n with
    | .node nm dn cpo cs =>
      let c0 := match lookupChild cs piece with
        | some c => c
        | none => initChild piece
      let c1 := if c0.name = endName then endUpdate markDone isdir prune cp c0 else c0
      let c2 := updateWalk markDone isdir prune cp endName rest c1
      PNode.node nm dn cpo (setChild cs piece c2)

/-- `SaveState.update_path(path, mark_done, copy_path, isdir)`; `path` is
already split into segments, whose last element is Python's `end`. -/
def update_path (t : PNode) (path : List String) (markDone isdir prune : Bool)
    (cp : Option String) : PNode :=
  updateWalk markDone isdir prune cp (path.getLastD "") path t

/-- The walk of `SaveState.get_state` (lines 187-201): returns true at a
done ancestor, false at a missing segment, and otherwise the done flag of
the first node on the walk whose name equals the last segment. -/
def getWalk (endName : String) : List String → PNode → Bool
  | [], _ => false
  | piece :: rest, n =>
    if n.done then true
    else
      match lookupChild n.children piece with
      | none => false
      | some c => if c.name = endName then c.done else getWalk endName rest c

/-- `SaveState.get_state(path)`. -/
def get_state (t : PNode) (path : List String) : Bool :=
  getWalk (path.getLastD "") path t

/-- The empty tree created by `SaveState.__init__` (root name `'root'`). -/
def rootNode : PNode := PNode.node "root" false none []

/-- Done flag of an optional node (`false` when absent). -/
def doneOf : Option PNode → Bool
  | none => false
  | some c => c.done

/-- Child of a tree node by segment name. -/
def childNode (t : PNode) (k : String) : Option PNode := lookupChild t.children k

/-- All children of an optional node are done (`true` when the node is
absent, matching a freshly created node's empty children). -/
def childrenAllDone : Option PNode → Bool
  | none => true
  | some c => c.children.all (fun kv => kv.2.done)

instance {ε α : Type} [DecidableEq ε] [DecidableEq α] : DecidableEq (Except ε α) := fun a b =>
  match a, b with
  | Except.error e1, Except.error e2 =>
    if h : e1 = e2 then isTrue (by rw [h]) else isFalse (by intro hh; cases hh; exact h rfl)
  | Except.error _, Except.ok _ => isFalse (by intro h; cases h)
  | Except.ok _, Except.error _ => isFalse (by intro h; cases h)
  | Except.ok v1, Except.ok v2 =>
    if h : v1 = v2 then isTrue (by rw [h]) else isFalse (by intro hh; cases hh; exact h rfl)

/-! # Shared evaluation lemmas -/

/-- Equal-after-normalization strings score exactly 1. -/
theorem score_eval_eq (c t : String) (h : pyNorm c = pyNorm t) :
    score_string_match (some c) (some t) = some 1 := by
  simp [score_string_match, h]

/-- A fully dissimilar pair (empty multiset intersection, equal lengths `n`,
edit distance `n`) scores exactly 0. -/
theorem score_eval_zero (c t : String) (n : Nat)
    (hne : (pyNorm c = pyNorm t) = False)
    (hi : bagInterSize (pyNorm c) (pyNorm t) = 0)
    (hlc : (pyNorm c).length = n) (hlt : (pyNorm t).length = n)
    (hed : edit_distance (pyNorm t) (pyNorm c) = n) (hn : n ≠ 0) :
    score_string_match (some c) (some t) = some 0 := by
  have hq : ((n : ℚ)) ≠ 0 := Nat.cast_ne_zero.mpr hn
  simp only [score_string_match, hne, if_false, hi, hlc, hlt, hed, Nat.max_self]
  rw [if_neg hn, if_neg hn]
  simp [div_self hq]

theorem matchTitle_true_of_score (cand tgt : Option String) (th q : ℚ)
    (h : score_string_match cand tgt = some q) (hq : th ≤ q) :
    matchWithTargetMetadataTitle cand tgt th = some true := by
  simp [matchWithTargetMetadataTitle, h, hq]

theorem matchTitle_false_of_score (cand tgt : Option String) (th q : ℚ)
    (h : score_string_match cand tgt = some q) (hq : ¬ th ≤ q) :
    matchWithTargetMetadataTitle cand tgt th = some false := by
  simp [matchWithTargetMetadataTitle, h, hq]

theorem matchArtist_true_of_score (cand tgt : Option String) (th q : ℚ)
    (h : score_string_match cand tgt = some q) (hq : th ≤ q) :
    matchWithTargetMetadataArtist cand tgt th = some true := by
  simp [matchWithTargetMetadataArtist, h, hq]

theorem matchArtist_false_of_score (cand tgt : Option String) (th q : ℚ)
    (h : score_string_match cand tgt = some q) (hq : ¬ th ≤ q) :
    matchWithTargetMetadataArtist cand tgt th = some false := by
  simp [matchWithTargetMetadataArtist, h, hq]

/-- Updating a key in the children dict and looking it up returns the new node. -/
theorem lookupChild_setChild_self (cs : List (String × PNode)) (k : String) (v : PNode) :
    lookupChild (setChild cs k v) k = some v := by
  induction cs with
  | nil => simp [setChild, lookupChild]
  | cons hd rest ih =>
    obtain ⟨k0, w⟩ := hd
    by_cases h : k0 = k
    · subst h; simp [setChild, lookupChild]
    · simp [setChild, lookupChild, h, ih]

/-- A successful `MetaData` construction (non-empty filetype). -/
theorem mkMetaData_ok (year artists album title : Option String) (ft : String) (hft : ft ≠ "") :
    mkMetaData year artists album title (some ft) =
      Except.ok ⟨artists, album, title, year, ft⟩ := by
  simp [mkMetaData, hft]

theorem stage_aid_seed_none (og : MetaData) : stage_aid_seed og none = Except.ok none := rfl

theorem stage_aid_seed_reject (og a : MetaData) (bt ba : Bool)
    (hmt : matchWithTargetMetadataTitle a.title og.title (1/2) = some bt)
    (hma : matchWithTargetMetadataArtist (some a.artistsP) (some og.artistsP) (1/2) = some ba)
    (hno : (ba && bt) = false) :
    stage_aid_seed og (some a) = Except.ok none := by
  simp only [stage_aid_seed, hmt, hma]
  simp [hno]

theorem stage_aid_seed_accept (og a : MetaData)
    (hmt : matchWithTargetMetadataTitle a.title og.title (1/2) = some true)
    (hma : matchWithTargetMetadataArtist (some a.artistsP) (some og.artistsP) (1/2) = some true) :
    stage_aid_seed og (some a) = Except.ok (some (some (backfillAlbum a og), true)) := by
  simp only [stage_aid_seed, hmt, hma]
  simp

theorem stage_cross_no_aid (shazam : Option MetaData) :
    stage_cross none shazam = Except.ok none := by
  cases shazam <;> rfl

theorem stage_cross_no_shazam (aid : Option MetaData) :
    stage_cross aid none = Except.ok none := by
  cases aid <;> rfl

theorem stage_cross_fail_artist (a s : MetaData)
    (hca : matchWithTargetMetadataArtist (some a.artistsP) (some s.artistsP) (7/10) = some false) :
    stage_cross (some a) (some s) = Except.ok none := by
  simp only [stage_cross, hca]
  simp

theorem stage_cross_fail_title (a s : MetaData)
    (hca : matchWithTargetMetadataArtist (some a.artistsP) (some s.artistsP) (7/10) = some true)
    (hct : matchWithTargetMetadataTitle a.title s.title (7/10) = some false) :
    stage_cross (some a) (some s) = Except.ok none := by
  simp only [stage_cross, hca, hct]
  simp

theorem stage_cross_accept (a s : MetaData) (m : Option MetaData)
    (hca : matchWithTargetMetadataArtist (some a.artistsP) (some s.artistsP) (7/10) = some true)
    (hct : matchWithTargetMetadataTitle a.title s.title (7/10) = some true)
    (hm : mergeMetadata (some a) (some s) = Except.ok m) :
    stage_cross (some a) (some s) = Except.ok (some (m, true)) := by
  simp only [stage_cross, hca, hct, hm]
  simp

theorem stage_aid_solo_none (og new0 : MetaData) :
    stage_aid_solo og new0 none = Except.ok none := rfl

theorem stage_aid_solo_reject (og new0 a : MetaData)
    (hmt : matchWithTargetMetadataTitle a.title og.title (1/2) = some false)
    (hma : matchWithTargetMetadataArtist (some a.artistsP) (some og.artistsP) (1/2) = some false) :
    stage_aid_solo og new0 (some a) = Except.ok none := by
  simp only [stage_aid_solo, hmt, hma]
  simp

theorem stage_shazam_none (og new0 : MetaData) (aid : Option MetaData) :
    stage_shazam og new0 aid none = Except.ok none := rfl

theorem stage_shazam_reject (og new0 : MetaData) (aid : Option MetaData) (s : MetaData)
    (hmt : matchWithTargetMetadataTitle s.title og.title (1/2) = some false)
    (hma : matchWithTargetMetadataArtist (some s.artistsP) (some og.artistsP) (1/2) = some false) :
    stage_shazam og new0 aid (some s) = Except.ok none := by
  simp only [stage_shazam, hmt, hma]
  simp

theorem stage_shazam_artist_only (og new0 : MetaData) (aid : Option MetaData) (s : MetaData)
    (hmt : matchWithTargetMetadataTitle s.title og.title (1/2) = some false)
    (hma : matchWithTargetMetadataArtist (some s.artistsP) (some og.artistsP) (1/2) = some true) :
    stage_shazam og new0 aid (some s) =
      match aid with
      | none => Except.error ()
      | some a => Except.ok (some (some (setArtists new0 (some a.artistsP)), false)) := by
  simp only [stage_shazam, hmt, hma]
  simp

/-- Unfolding `search_online_metadata` for a non-empty filetype: line 556
builds `new_metadata` from the seed's property values and the rest of the
function runs on it. -/
theorem search_unfold (og : MetaData) (ft : String) (aid shazam : Option MetaData)
    (hft : ft ≠ "") :
    search_online_metadata og ft aid shazam =
      searchBody og (seedCopy og ft) aid shazam := by
  rw [search_online_metadata, mkMetaData_ok _ _ _ _ _ hft]
  rfl

/-! # Claim C2 -/

/-- Claim C2, as stated, is false on the code: with a seed
`{artists "Band", title "Song"}` and neither source producing a candidate,
`search_online_metadata` returns `(None, False)` — it does *not* return the
seed record. -/
theorem c2_counterexample :
    search_online_metadata ⟨some "Band", none, some "Song", none, "mp3"⟩ "mp3" none none =
      Except.ok (none, false) ∧
    ¬ search_online_metadata ⟨some "Band", none, some "Song", none, "mp3"⟩ "mp3" none none =
        Except.ok (some ⟨some "Band", none, some "Song", none, "mp3"⟩, false) := by
  constructor
  · decide
  · decide

/-- Claim C2, amended: whenever no source's candidate passes *either* the
artist or the title similarity check against the seed (each at threshold
0.5), and — when both sources produced candidates — the 0.7 cross-source
agreement also fails, `search_online_metadata` returns `(None, False)`:
no replacement record together with the non-confident flag (the caller then
keeps the seed and routes the file to manual sorting); the seed record
itself is not returned. -/
theorem c2_amended_nomatch_returns_none (og : MetaData) (ft : String)
    (aid shazam : Option MetaData)
    (hft : ft ≠ "")
    (haid : ∀ a, aid = some a →
      matchWithTargetMetadataTitle a.title og.title (1/2) = some false ∧
      matchWithTargetMetadataArtist (some a.artistsP) (some og.artistsP) (1/2) = some false)
    (hshz : ∀ s, shazam = some s →
      matchWithTargetMetadataTitle s.title og.title (1/2) = some false ∧
      matchWithTargetMetadataArtist (some s.artistsP) (some og.artistsP) (1/2) = some false)
    (hcross : ∀ a s, aid = some a → shazam = some s →
      matchWithTargetMetadataArtist (some a.artistsP) (some s.artistsP) (7/10) = some false ∨
      (matchWithTargetMetadataArtist (some a.artistsP) (some s.artistsP) (7/10) = some true ∧
       matchWithTargetMetadataTitle a.title s.title (7/10) = some false)) :
    search_online_metadata og ft aid shazam = Except.ok (none, false) := by
  rw [search_unfold og ft aid shazam hft, searchBody]
  cases aid with
  | none =>
    cases shazam with
    | none =>
      rw [stage_aid_seed_none, stage_cross_no_aid, stage_aid_solo_none, stage_shazam_none]
    | some s =>
      obtain ⟨h1, h2⟩ := hshz s rfl
      rw [stage_aid_seed_none, stage_cross_no_aid, stage_aid_solo_none,
          stage_shazam_reject _ _ _ _ h1 h2]
  | some a =>
    obtain ⟨g1, g2⟩ := haid a rfl
    cases shazam with
    | none =>
      rw [stage_aid_seed_reject _ _ _ _ g1 g2 rfl, stage_cross_no_shazam,
          stage_aid_solo_reject _ _ _ g1 g2, stage_shazam_none]
    | some s =>
      obtain ⟨h1, h2⟩ := hshz s rfl
      rcases hcross a s rfl rfl with hc | ⟨hc1, hc2⟩
      · rw [stage_aid_seed_reject _ _ _ _ g1 g2 rfl, stage_cross_fail_artist _ _ hc,
            stage_aid_solo_reject _ _ _ g1 g2, stage_shazam_reject _ _ _ _ h1 h2]
      · rw [stage_aid_seed_reject _ _ _ _ g1 g2 rfl, stage_cross_fail_title _ _ hc1 hc2,
            stage_aid_solo_reject _ _ _ g1 g2, stage_shazam_reject _ _ _ _ h1 h2]

/-- Witness for C2: the amended theorem applied at a concrete seed with both
sources empty. -/
theorem c2_witness :
    search_online_metadata ⟨some "Ana", none, some "Tune", none, "ogg"⟩ "ogg" none none =
      Except.ok (none, false) :=
  c2_amended_nomatch_returns_none ⟨some "Ana", none, some "Tune", none, "ogg"⟩ "ogg" none none
    (by decide)
    (fun a h => by cases h)
    (fun s h => by cases h)
    (fun a s h hs => by cases h)

/-! # Claim C10 -/

/-- Claim C10: when the AcoustID candidate's title and artist similarity to
the seed both reach the 0.5 threshold, `search_online_metadata` returns that
candidate (album backfilled from the seed when it is the sentinel) as
Confident, and the result does not depend on the Shazam lookup at all —
Source B is never consulted on this path. -/
theorem c10_aid_confident_skips_shazam (og a : MetaData) (ft : String)
    (hft : ft ≠ "")
    (hmt : matchWithTargetMetadataTitle a.title og.title (1/2) = some true)
    (hma : matchWithTargetMetadataArtist (some a.artistsP) (some og.artistsP) (1/2) = some true) :
    ∀ shazam : Option MetaData,
      search_online_metadata og ft (some a) shazam =
        Except.ok (some (backfillAlbum a og), true) := by
  intro shazam
  rw [search_unfold og ft (some a) shazam hft, searchBody, stage_aid_seed_accept _ _ hmt hma]

/-- Witness for C10: a seed whose tags exactly match the AcoustID candidate;
the outcome is the same whether Shazam would have answered or not, and is
Confident with the candidate's record. -/
theorem c10_witness :
    search_online_metadata ⟨some "Band", some "Seed Album", some "Song", none, "mp3"⟩ "mp3"
        (some ⟨some "Band", some "Real Album", some "Song", none, "mp3"⟩) none =
      Except.ok (some ⟨some "Band", some "Real Album", some "Song", none, "mp3"⟩, true) ∧
    search_online_metadata ⟨some "Band", some "Seed Album", some "Song", none, "mp3"⟩ "mp3"
        (some ⟨some "Band", some "Real Album", some "Song", none, "mp3"⟩)
        (some ⟨some "Zzzz", some "Qqqq", some "Wwww", none, "mp3"⟩) =
      Except.ok (some ⟨some "Band", some "Real Album", some "Song", none, "mp3"⟩, true) := by
  have hmt : matchWithTargetMetadataTitle (some "Song") (some "Song") (1/2) = some true :=
    matchTitle_true_of_score _ _ _ _ (score_eval_eq "Song" "Song" (by decide)) (by norm_num)
  have hma : matchWithTargetMetadataArtist (some "Band") (some "Band") (1/2) = some true :=
    matchArtist_true_of_score _ _ _ _ (score_eval_eq "Band" "Band" (by decide)) (by norm_num)
  have h := c10_aid_confident_skips_shazam
    ⟨some "Band", some "Seed Album", some "Song", none, "mp3"⟩
    ⟨some "Band", some "Real Album", some "Song", none, "mp3"⟩ "mp3"
    (by decide) hmt hma
  exact ⟨h none, h (some ⟨some "Zzzz", some "Qqqq", some "Wwww", none, "mp3"⟩)⟩


/-! # Further shared lemmas -/

theorem getValueIfNotNone_some_left (a : String) (b : Option String) :
    getValueIfNotNone (some a) b = some a := by
  cases b <;> rfl

theorem mergeMetadata_some_some (a s : MetaData) (hft : a.filetype ≠ "") :
    mergeMetadata (some a) (some s) =
      Except.ok (some ⟨some a.artistsP, some a.albumP,
        getValueIfNotNone a.title s.title, none, a.filetype⟩) := by
  simp only [mergeMetadata, getValueIfNotNone_some_left]
  rw [mkMetaData_ok _ _ _ _ _ hft]

theorem selStep_pos (st : SelState) (c : ScoredCand) (h : st.combined < c.combinedScore) :
    selStep st c =
      ⟨c.aidScore, c.artistScore, c.titleScore, c.combinedScore / 6,
       some c.rid, c.title, c.artist⟩ := by
  simp [selStep, h]

theorem selStep_neg (st : SelState) (c : ScoredCand) (h : ¬ st.combined < c.combinedScore) :
    selStep st c = st := by
  simp [selStep, h]

/-! # Claim C1 -/

/-- Claim C1 is wrong about the code: with seed artist `band` / title
`song` and the ranked candidates
`(0.9, r1, song, band)` (combined score `0.9 + 2·1 + 3·1 = 5.9`) and
`(0.99, r2, None, None)` (combined score `0.99`), the selection loop picks
`r2`: after selecting `r1` the running best is stored already divided by
6.0 (`5.9/6 ≈ 0.983`), so the later raw score `0.99` beats it even though
`r1`'s combined score is strictly highest.  The division by 6.0 therefore
*does* influence which candidate is selected. -/
theorem c1_selection_bug :
    process_aid_results
        [(9/10, "r1", some "song", some "band"), (99/100, "r2", none, none)]
        (some "band") (some "song") = Except.ok ("r2", none, none) ∧
    (99/100 : ℚ) < 9/10 + 2 * 1 + 3 * 1 := by
  have sb : score_string_match (some "band") (some "band") = some 1 :=
    score_eval_eq _ _ (by decide)
  have ss : score_string_match (some "song") (some "song") = some 1 :=
    score_eval_eq _ _ (by decide)
  have s0b : score_string_match none (some "band") = some 0 := rfl
  have s0s : score_string_match none (some "song") = some 0 := rfl
  have f1 : selStep ⟨0, 0, 0, 0, none, none, none⟩
      ⟨9/10, "r1", some "song", some "band", 1, 1, 9/10 + 2 * 1 + 3 * 1⟩ =
      ⟨9/10, 1, 1, (9/10 + 2 * 1 + 3 * 1) / 6, some "r1", some "song", some "band"⟩ :=
    selStep_pos _ _ (by norm_num)
  have f2 : selStep ⟨9/10, 1, 1, (9/10 + 2 * 1 + 3 * 1) / 6, some "r1", some "song", some "band"⟩
      ⟨99/100, "r2", none, none, 0, 0, 99/100 + 2 * 0 + 3 * 0⟩ =
      ⟨99/100, 0, 0, (99/100 + 2 * 0 + 3 * 0) / 6, some "r2", none, none⟩ :=
    selStep_pos _ _ (by norm_num)
  constructor
  · simp only [process_aid_results, scoreCands, scoreCand, sb, ss, s0b, s0s,
               List.foldl_cons, List.foldl_nil, f1, f2]
  · norm_num

/-! # Claim C3 -/

/-- Claim C3 fails on the code for a Source B candidate: with seed
`{artists "Band", title "Song"}`, no Source A result, and a Shazam
candidate `{artists "Band", title "Qqqq"}` whose artist matches but whose
title does not, line 633 evaluates `aid_metadata.artists` with
`aid_metadata = None`, an `AttributeError` (modelled `Except.error ()`) —
no PartialUpdate is produced.  And when Source A *did* produce a (rejected)
candidate `{artists "Xxxx", title "Wwww"}`, the artist written into the
partial update is Source A's `Xxxx`, not the matching Shazam artist
`Band`. -/
theorem c3_shazam_partial_crash :
    search_online_metadata ⟨some "Band", none, some "Song", none, "mp3"⟩ "mp3" none
        (some ⟨some "Band", none, some "Qqqq", none, "mp3"⟩) = Except.error () ∧
    search_online_metadata ⟨some "Band", none, some "Song", none, "mp3"⟩ "mp3"
        (some ⟨some "Xxxx", none, some "Wwww", none, "mp3"⟩)
        (some ⟨some "Band", none, some "Qqqq", none, "mp3"⟩) =
      Except.ok (some ⟨some "Xxxx", some "Unknown Album", some "Song", none, "mp3"⟩, false) ∧
    "Xxxx" ≠ "Band" := by
  have sq : score_string_match (some "Qqqq") (some "Song") = some 0 :=
    score_eval_zero _ _ 4 (by decide) (by decide) (by decide) (by decide) (by decide) (by decide)
  have sbb : score_string_match (some "Band") (some "Band") = some 1 :=
    score_eval_eq _ _ (by decide)
  have sw : score_string_match (some "Wwww") (some "Song") = some 0 :=
    score_eval_zero _ _ 4 (by decide) (by decide) (by decide) (by decide) (by decide) (by decide)
  have sx : score_string_match (some "Xxxx") (some "Band") = some 0 :=
    score_eval_zero _ _ 4 (by decide) (by decide) (by decide) (by decide) (by decide) (by decide)
  have mtq : matchWithTargetMetadataTitle (some "Qqqq") (some "Song") (1/2) = some false :=
    matchTitle_false_of_score _ _ _ _ sq (by norm_num)
  have mab : matchWithTargetMetadataArtist (some "Band") (some "Band") (1/2) = some true :=
    matchArtist_true_of_score _ _ _ _ sbb (by norm_num)
  have mtw : matchWithTargetMetadataTitle (some "Wwww") (some "Song") (1/2) = some false :=
    matchTitle_false_of_score _ _ _ _ sw (by norm_num)
  have maxb : matchWithTargetMetadataArtist (some "Xxxx") (some "Band") (1/2) = some false :=
    matchArtist_false_of_score _ _ _ _ sx (by norm_num)
  have maxb7 : matchWithTargetMetadataArtist (some "Xxxx") (some "Band") (7/10) = some false :=
    matchArtist_false_of_score _ _ _ _ sx (by norm_num)
  refine ⟨?_, ?_, by decide⟩
  · rw [search_unfold _ _ _ _ (by decide), searchBody, stage_aid_seed_none,
        stage_cross_no_aid, stage_aid_solo_none,
        stage_shazam_artist_only
          ⟨some "Band", none, some "Song", none, "mp3"⟩
          (seedCopy ⟨some "Band", none, some "Song", none, "mp3"⟩ "mp3") none
          ⟨some "Band", none, some "Qqqq", none, "mp3"⟩ mtq mab]
  · have e1 : stage_aid_seed ⟨some "Band", none, some "Song", none, "mp3"⟩
        (some ⟨some "Xxxx", none, some "Wwww", none, "mp3"⟩) = Except.ok none :=
      stage_aid_seed_reject _ _ false false mtw maxb rfl
    have e2 : stage_cross (some ⟨some "Xxxx", none, some "Wwww", none, "mp3"⟩)
        (some ⟨some "Band", none, some "Qqqq", none, "mp3"⟩) = Except.ok none :=
      stage_cross_fail_artist _ _ maxb7
    have e3 : stage_aid_solo ⟨some "Band", none, some "Song", none, "mp3"⟩
        (seedCopy ⟨some "Band", none, some "Song", none, "mp3"⟩ "mp3")
        (some ⟨some "Xxxx", none, some "Wwww", none, "mp3"⟩) = Except.ok none :=
      stage_aid_solo_reject _ _ _ mtw maxb
    have e4 := stage_shazam_artist_only
        ⟨some "Band", none, some "Song", none, "mp3"⟩
        (seedCopy ⟨some "Band", none, some "Song", none, "mp3"⟩ "mp3")
        (some ⟨some "Xxxx", none, some "Wwww", none, "mp3"⟩)
        ⟨some "Band", none, some "Qqqq", none, "mp3"⟩ mtq mab
    rw [search_unfold _ _ _ _ (by decide), searchBody, e1, e2, e3, e4]
    decide

/-! # Claim C4 -/

/-- Claim C4 fails on the code: the seed is `{artists "Zzzz", title "Qqqq"}`
(so the AcoustID candidate does not pass the seed gate), Source A returns
`{artists "Band", album None, title "Song"}`, Source B returns
`{artists "Band", album "Great Album", title "Song"}`; the two candidates
agree at the 0.7 threshold, and the merged Confident record's album is the
sentinel `"Unknown Album"` — Source B's real, non-default `"Great Album"`
is discarded, because `mergeMetadata` reads the sentinel-substituting
`album` property, which is never `None`.  Moreover, when the Source A
candidate *does* pass the seed gate (seed `{artists "Band", album
"Seed Album", title "Song"}`), the cross-agreeing candidates are not merged
at all: Source A's record is returned with the album backfilled from the
seed (`"Seed Album"`), not `"Great Album"`. -/
theorem c4_counterexample :
    search_online_metadata ⟨some "Zzzz", none, some "Qqqq", none, "mp3"⟩ "mp3"
        (some ⟨some "Band", none, some "Song", none, "mp3"⟩)
        (some ⟨some "Band", some "Great Album", some "Song", none, "mp3"⟩) =
      Except.ok (some ⟨some "Band", some "Unknown Album", some "Song", none, "mp3"⟩, true) ∧
    (some "Unknown Album" : Option String) ≠ some "Great Album" ∧
    search_online_metadata ⟨some "Band", some "Seed Album", some "Song", none, "mp3"⟩ "mp3"
        (some ⟨some "Band", none, some "Song", none, "mp3"⟩)
        (some ⟨some "Band", some "Great Album", some "Song", none, "mp3"⟩) =
      Except.ok (some ⟨some "Band", some "Seed Album", some "Song", none, "mp3"⟩, true) := by
  have ssq : score_string_match (some "Song") (some "Qqqq") = some 0 :=
    score_eval_zero _ _ 4 (by decide) (by decide) (by decide) (by decide) (by decide) (by decide)
  have sbz : score_string_match (some "Band") (some "Zzzz") = some 0 :=
    score_eval_zero _ _ 4 (by decide) (by decide) (by decide) (by decide) (by decide) (by decide)
  have sbb : score_string_match (some "Band") (some "Band") = some 1 :=
    score_eval_eq _ _ (by decide)
  have sss : score_string_match (some "Song") (some "Song") = some 1 :=
    score_eval_eq _ _ (by decide)
  have mt0 : matchWithTargetMetadataTitle (some "Song") (some "Qqqq") (1/2) = some false :=
    matchTitle_false_of_score _ _ _ _ ssq (by norm_num)
  have ma0 : matchWithTargetMetadataArtist (some "Band") (some "Zzzz") (1/2) = some false :=
    matchArtist_false_of_score _ _ _ _ sbz (by norm_num)
  have ca0 : matchWithTargetMetadataArtist (some "Band") (some "Band") (7/10) = some true :=
    matchArtist_true_of_score _ _ _ _ sbb (by norm_num)
  have ct0 : matchWithTargetMetadataTitle (some "Song") (some "Song") (7/10) = some true :=
    matchTitle_true_of_score _ _ _ _ sss (by norm_num)
  have mt1 : matchWithTargetMetadataTitle (some "Song") (some "Song") (1/2) = some true :=
    matchTitle_true_of_score _ _ _ _ sss (by norm_num)
  have ma1 : matchWithTargetMetadataArtist (some "Band") (some "Band") (1/2) = some true :=
    matchArtist_true_of_score _ _ _ _ sbb (by norm_num)
  refine ⟨?_, by decide, ?_⟩
  · have e1 : stage_aid_seed ⟨some "Zzzz", none, some "Qqqq", none, "mp3"⟩
        (some ⟨some "Band", none, some "Song", none, "mp3"⟩) = Except.ok none :=
      stage_aid_seed_reject _ _ false false mt0 ma0 rfl
    have e2 : stage_cross (some ⟨some "Band", none, some "Song", none, "mp3"⟩)
        (some ⟨some "Band", some "Great Album", some "Song", none, "mp3"⟩) =
        Except.ok (some
          (some ⟨some "Band", some "Unknown Album", some "Song", none, "mp3"⟩, true)) :=
      stage_cross_accept _ _ _ ca0 ct0 (by decide)
    rw [search_unfold _ _ _ _ (by decide), searchBody, e1, e2]
  · have e1 : stage_aid_seed ⟨some "Band", some "Seed Album", some "Song", none, "mp3"⟩
        (some ⟨some "Band", none, some "Song", none, "mp3"⟩) =
        Except.ok (some
          (some ⟨some "Band", some "Seed Album", some "Song", none, "mp3"⟩, true)) := by
      rw [stage_aid_seed_accept ⟨some "Band", some "Seed Album", some "Song", none, "mp3"⟩
            ⟨some "Band", none, some "Song", none, "mp3"⟩ mt1 ma1]
      decide
    rw [search_unfold _ _ _ _ (by decide), searchBody, e1]

/-- Claim C4, amended: when both sources produce candidates, the AcoustID
candidate did not already pass the 0.5 seed gate (otherwise it is returned
alone), and the candidates pass the 0.7 cross-agreement on artist and
title, the outcome is Confident with the `mergeMetadata` record: its
`artists` and `album` are Source A's sentinel-substituting property values
(so Source A wins even when its value is an `Unknown ...` sentinel and
Source B holds real data), its `title` is the first non-`None` of Source
A's then Source B's raw titles, and its filetype is Source A's. -/
theorem c4_amended_merge (og a s : MetaData) (ft : String) (bt ba : Bool)
    (hft : ft ≠ "") (haft : a.filetype ≠ "")
    (hmt : matchWithTargetMetadataTitle a.title og.title (1/2) = some bt)
    (hma : matchWithTargetMetadataArtist (some a.artistsP) (some og.artistsP) (1/2) = some ba)
    (hnotboth : (ba && bt) = false)
    (hca : matchWithTargetMetadataArtist (some a.artistsP) (some s.artistsP) (7/10) = some true)
    (hct : matchWithTargetMetadataTitle a.title s.title (7/10) = some true) :
    search_online_metadata og ft (some a) (some s) =
      Except.ok (some ⟨some a.artistsP, some a.albumP,
        getValueIfNotNone a.title s.title, none, a.filetype⟩, true) := by
  rw [search_unfold og ft (some a) (some s) hft, searchBody,
      stage_aid_seed_reject _ _ _ _ hmt hma hnotboth,
      stage_cross_accept _ _ _ hca hct (mergeMetadata_some_some a s haft)]

/-- Witness for C4: the amended theorem applied at concrete candidates; the
merged album is Source A's sentinel, not Source B's `"Other Album"`. -/
theorem c4_witness :
    search_online_metadata ⟨some "Zzzz", none, some "Qqqq", none, "mp3"⟩ "mp3"
        (some ⟨some "Band", none, some "Song", none, "mp3"⟩)
        (some ⟨some "Band", some "Other Album", some "Song", none, "mp3"⟩) =
      Except.ok (some ⟨some "Band", some "Unknown Album", some "Song", none, "mp3"⟩, true) := by
  have ssq : score_string_match (some "Song") (some "Qqqq") = some 0 :=
    score_eval_zero _ _ 4 (by decide) (by decide) (by decide) (by decide) (by decide) (by decide)
  have sbz : score_string_match (some "Band") (some "Zzzz") = some 0 :=
    score_eval_zero _ _ 4 (by decide) (by decide) (by decide) (by decide) (by decide) (by decide)
  have sbb : score_string_match (some "Band") (some "Band") = some 1 :=
    score_eval_eq _ _ (by decide)
  have sss : score_string_match (some "Song") (some "Song") = some 1 :=
    score_eval_eq _ _ (by decide)
  exact c4_amended_merge
    ⟨some "Zzzz", none, some "Qqqq", none, "mp3"⟩
    ⟨some "Band", none, some "Song", none, "mp3"⟩
    ⟨some "Band", some "Other Album", some "Song", none, "mp3"⟩
    "mp3" false false (by decide) (by decide)
    (matchTitle_false_of_score _ _ _ _ ssq (by norm_num))
    (matchArtist_false_of_score _ _ _ _ sbz (by norm_num))
    rfl
    (matchArtist_true_of_score _ _ _ _ sbb (by norm_num))
    (matchTitle_true_of_score _ _ _ _ sss (by norm_num))

/-! # Claim C6 -/

/-- Claim C6 is wrong about the title half: constructing a `MetaData` with
an absent (`None`) or empty title succeeds — the title setter performs no
validation; only the filetype setter raises. -/
theorem c6_counterexample :
    mkMetaData none none none none (some "mp3") =
      Except.ok ⟨none, none, none, none, "mp3"⟩ ∧
    mkMetaData none none none (some "") (some "mp3") =
      Except.ok ⟨none, none, some "", none, "mp3"⟩ := by
  constructor <;> decide

/-- Claim C6, amended: `MetaData` construction fails with a validation
error if and only if the *filetype* is empty or absent; the title (like
artist, album and year) is not validated, and on success sentinel defaults
are supplied on read for unset artists/album/year. -/
theorem c6_amended_validation_iff (year artists album title filetype : Option String) :
    (mkMetaData year artists album title filetype = Except.error () ↔
      filetype = none ∨ filetype = some "") ∧
    (∀ m, mkMetaData year artists album title filetype = Except.ok m →
      (artists = none → m.artistsP = "Unknown Artist") ∧
      (album = none → m.albumP = "Unknown Album") ∧
      (year = none → m.yearP = "Unknown Year")) := by
  cases filetype with
  | none => simp [mkMetaData]
  | some ft =>
    by_cases h : ft = ""
    · subst h
      simp [mkMetaData]
    · constructor
      · simp [mkMetaData, h]
      · intro m hm
        rw [mkMetaData_ok _ _ _ _ _ h] at hm
        cases hm
        refine ⟨?_, ?_, ?_⟩ <;> intro hh <;> subst hh <;> rfl

/-- Witness for C6: both directions of the amended characterisation at
concrete inputs — absent filetype fails, and a record with unset fields
reads back the sentinels. -/
theorem c6_witness :
    mkMetaData none none none (some "Song") none = Except.error () ∧
    (⟨none, none, some "Song", none, "mp3"⟩ : MetaData).artistsP = "Unknown Artist" := by
  constructor
  · exact (c6_amended_validation_iff none none none (some "Song") none).1.mpr (Or.inl rfl)
  · exact (((c6_amended_validation_iff none none none (some "Song") (some "mp3")).2
      ⟨none, none, some "Song", none, "mp3"⟩ (by decide)).1 rfl)

/-! # Claim C8 -/

/-- Claim C8 is right and the code is wrong: after `mark("a/b", done=True)`
(with pruning) on an empty tree, `is_done("a/b/a")` must be true — `a/b` is
a done ancestor-prefix of the query — but `get_state` walks to the *first*
node whose name equals the query's last segment (`a`, at depth 1), and
returns that node's done flag, `False`.  The second conjunct shows the
ancestor `a/b` itself is reported done, so the inheritance hypothesis of
the claim holds at this input. -/
theorem c8_is_done_early_stop :
    get_state (update_path rootNode ["a", "b"] true true true none) ["a", "b", "a"] = false ∧
    get_state (update_path rootNode ["a", "b"] true true true none) ["a", "b"] = true := by
  constructor <;> decide

/-! # Claim C9 -/

/-- Claim C9 fails on the code: directory `d` is created, its file child
`c` is created not-done, `d` is explicitly marked done while `c` is still
pending (the aggregation leaves `d` not done), and then the leaf `c` is
marked done.  All of `d`'s children are now done and `d` had an explicit
mark, but no cascade happens: `update_path` recomputed nothing at `d`
because its name differs from the path's last segment, so `is_done("d")`
is still false while `is_done("d/c")` is true. -/
theorem c9_counterexample :
    get_state
      (update_path
        (update_path
          (update_path
            (update_path rootNode ["d"] false true true none)
            ["d", "c"] false false true none)
          ["d"] true true true none)
        ["d", "c"] true false true none)
      ["d"] = false ∧
    get_state
      (update_path
        (update_path
          (update_path
            (update_path rootNode ["d"] false true true none)
            ["d", "c"] false false true none)
          ["d"] true true true none)
        ["d", "c"] true false true none)
      ["d", "c"] = true := by
  constructor <;> decide

/-! # Claim C5 -/

theorem bagInterSize_le (s : List Char) : ∀ t : List Char, bagInterSize s t ≤ t.length := by
  induction s with
  | nil => intro t; simp [bagInterSize]
  | cons c rest ih =>
    intro t
    simp only [bagInterSize]
    by_cases h : c ∈ t
    · rw [if_pos h]
      have h2 := ih (t.erase c)
      have h3 : (t.erase c).length = t.length - 1 := List.length_erase_of_mem h
      have h4 : 0 < t.length := List.length_pos_of_mem h
      omega
    · rw [if_neg h]
      exact ih t

theorem levFuel_le_max :
    ∀ (n : Nat) (s t : List Char), s.length + t.length < n →
      levFuel n s t ≤ max s.length t.length := by
  intro n
  induction n with
  | zero => intro s t h; omega
  | succ m ih =>
    intro s t h
    match s, t with
    | [], t => simp [levFuel]
    | a :: s, [] => simp [levFuel]
    | a :: s, b :: t =>
      simp only [levFuel]
      have h3 : s.length + t.length < m := by
        simp only [List.length_cons] at h
        omega
      have c3 := ih s t h3
      have hmin : min (levFuel m s (b :: t) + 1)
          (min (levFuel m (a :: s) t + 1)
            (levFuel m s t + (if a = b then 0 else 1))) ≤
          levFuel m s t + (if a = b then 0 else 1) :=
        le_trans (Nat.min_le_right _ _) (Nat.min_le_right _ _)
      have hcost : (if a = b then 0 else 1) ≤ 1 := by split <;> omega
      have hstep : levFuel m s t + (if a = b then 0 else 1) ≤
          max s.length t.length + 1 := Nat.add_le_add c3 hcost
      have hmax : max s.length t.length + 1 = max (a :: s).length (b :: t).length := by
        simp only [List.length_cons]
        exact (Nat.succ_max_succ _ _).symm
      rw [← hmax]
      exact le_trans hmin hstep

theorem edit_distance_le_max (s t : List Char) :
    edit_distance s t ≤ max t.length s.length := by
  have := levFuel_le_max (s.length + t.length + 1) s t (by omega)
  simpa [Nat.max_comm] using this

/-- Unfolding of `score_string_match` on the general (unequal, non-empty
target) branch. -/
theorem score_eval_ne (c t : String) (hne : ¬ pyNorm c = pyNorm t)
    (htl : ¬ (pyNorm t).length = 0) :
    score_string_match (some c) (some t) =
      some (((bagInterSize (pyNorm c) (pyNorm t) : ℚ) / ((pyNorm t).length : ℚ) +
        (if max (pyNorm c).length (pyNorm t).length = 0 then (1 : ℚ)
         else 1 - (edit_distance (pyNorm t) (pyNorm c) : ℚ) /
           (((max (pyNorm c).length (pyNorm t).length : Nat) : ℚ))) ) / 2) := by
  simp only [score_string_match]
  rw [if_neg hne, if_neg htl]

/-- Claim C5, as stated, is false on the code: the score is not total — a
non-empty candidate against an empty target raises `ZeroDivisionError`
(`intersection_size / target_size` with `target_size = 0`), modelled by
`none`. -/
theorem c5_counterexample :
    score_string_match (some "a") (some "") = none := by decide

/-- Claim C5, amended: `score_string_match` is deterministic; it returns 0.0
when either input is absent; it returns exactly 1.0 whenever the two
strings are equal after lower-casing and whitespace trimming (in particular
on `score(x, x)`); and whenever the trimmed target is non-empty the result
is defined and lies in [0, 1].  Only the remaining case — non-equal strings
with an empty trimmed target — raises `ZeroDivisionError` instead of
returning a float. -/
theorem c5_amended_score_contract (candidate target : Option String) :
    (candidate = none → score_string_match candidate target = some 0) ∧
    (target = none → score_string_match candidate target = some 0) ∧
    (∀ c t, candidate = some c → target = some t → pyNorm c = pyNorm t →
      score_string_match candidate target = some 1) ∧
    (∀ c t, candidate = some c → target = some t → pyNorm t ≠ [] →
      ∃ q, score_string_match candidate target = some q ∧ 0 ≤ q ∧ q ≤ 1) := by
  refine ⟨?_, ?_, ?_, ?_⟩
  · rintro rfl; rfl
  · rintro rfl; cases candidate <;> rfl
  · rintro c t rfl rfl h
    exact score_eval_eq c t h
  · rintro c t rfl rfl hne0
    by_cases heq : pyNorm c = pyNorm t
    · exact ⟨1, score_eval_eq c t heq, by norm_num, by norm_num⟩
    · have htl : ¬ (pyNorm t).length = 0 := by
        simpa [List.length_eq_zero] using hne0
      have hTpos : 0 < (pyNorm t).length := Nat.pos_of_ne_zero htl
      have hMpos : 0 < max (pyNorm c).length (pyNorm t).length :=
        lt_of_lt_of_le hTpos (Nat.le_max_right _ _)
      have hM0 : ¬ max (pyNorm c).length (pyNorm t).length = 0 := by omega
      have hI := bagInterSize_le (pyNorm c) (pyNorm t)
      have hE := edit_distance_le_max (pyNorm t) (pyNorm c)
      have hTq : (0 : ℚ) < ((pyNorm t).length : ℚ) := by exact_mod_cast hTpos
      have hMq : (0 : ℚ) < ((max (pyNorm c).length (pyNorm t).length : Nat) : ℚ) := by
        exact_mod_cast hMpos
      have hIq : ((bagInterSize (pyNorm c) (pyNorm t) : ℚ)) ≤ ((pyNorm t).length : ℚ) := by
        exact_mod_cast hI
      have hEq2 : ((edit_distance (pyNorm t) (pyNorm c) : ℚ)) ≤
          ((max (pyNorm c).length (pyNorm t).length : Nat) : ℚ) := by
        exact_mod_cast hE
      have hInn : (0 : ℚ) ≤ ((bagInterSize (pyNorm c) (pyNorm t) : ℚ)) := by positivity
      have hEnn : (0 : ℚ) ≤ ((edit_distance (pyNorm t) (pyNorm c) : ℚ)) := by positivity
      have hIdiv1 : ((bagInterSize (pyNorm c) (pyNorm t) : ℚ)) / ((pyNorm t).length : ℚ) ≤ 1 :=
        (div_le_one hTq).mpr hIq
      have hIdiv0 : (0 : ℚ) ≤ ((bagInterSize (pyNorm c) (pyNorm t) : ℚ)) / ((pyNorm t).length : ℚ) :=
        div_nonneg hInn (le_of_lt hTq)
      have hEdiv1 : ((edit_distance (pyNorm t) (pyNorm c) : ℚ)) /
          ((max (pyNorm c).length (pyNorm t).length : Nat) : ℚ) ≤ 1 :=
        (div_le_one hMq).mpr hEq2
      have hEdiv0 : (0 : ℚ) ≤ ((edit_distance (pyNorm t) (pyNorm c) : ℚ)) /
          ((max (pyNorm c).length (pyNorm t).length : Nat) : ℚ) :=
        div_nonneg hEnn (le_of_lt hMq)
      refine ⟨_, score_eval_ne c t heq htl, ?_, ?_⟩
      · rw [if_neg hM0]
        linarith
      · rw [if_neg hM0]
        linarith

/-- Witness for C5: the amended contract applied at concrete inputs —
case/whitespace-normalized equality scores 1, an absent candidate scores
0, and a dissimilar pair gets a defined score in [0, 1]. -/
theorem c5_witness :
    score_string_match (some "Abc") (some " abc ") = some 1 ∧
    score_string_match none (some "x") = some 0 ∧
    ∃ q, score_string_match (some "ab") (some "cd") = some q ∧ 0 ≤ q ∧ q ≤ 1 := by
  refine ⟨?_, ?_, ?_⟩
  · exact (c5_amended_score_contract (some "Abc") (some " abc ")).2.2.1 "Abc" " abc "
      rfl rfl (by decide)
  · exact (c5_amended_score_contract none (some "x")).1 rfl
  · exact (c5_amended_score_contract (some "ab") (some "cd")).2.2.2 "ab" "cd"
      rfl rfl (by decide)

/-! # Claim C7 -/

theorem mem_replaceChar (k : Char) (v : List Char) (l : List Char) (a : Char)
    (h : a ∈ replaceChar k v l) : a ∈ v ∨ a ∈ l := by
  induction l with
  | nil => simp [replaceChar] at h
  | cons c rest ih =>
    simp only [replaceChar, List.mem_append] at h
    rcases h with h | h
    · by_cases hc : c = k
      · rw [if_pos hc] at h
        exact Or.inl h
      · rw [if_neg hc] at h
        simp only [List.mem_singleton] at h
        subst h
        exact Or.inr (List.mem_cons_self _ _)
    · rcases ih h with h2 | h2
      · exact Or.inl h2
      · exact Or.inr (List.mem_cons_of_mem _ h2)

theorem replaceChar_self_not_mem (k : Char) (v : List Char) (l : List Char) (hkv : k ∉ v) :
    k ∉ replaceChar k v l := by
  induction l with
  | nil => simp [replaceChar]
  | cons c rest ih =>
    simp only [replaceChar, List.mem_append]
    rintro (h | h)
    · by_cases hc : c = k
      · rw [if_pos hc] at h
        exact hkv h
      · rw [if_neg hc] at h
        simp only [List.mem_singleton] at h
        exact hc h.symm
    · exact ih h

theorem replaceChar_eq_self (k : Char) (v : List Char) (l : List Char) (h : k ∉ l) :
    replaceChar k v l = l := by
  induction l with
  | nil => rfl
  | cons c rest ih =>
    simp only [List.mem_cons, not_or] at h
    obtain ⟨h1, h2⟩ := h
    simp only [replaceChar]
    rw [if_neg (fun hc => h1 hc.symm), ih h2]
    rfl

theorem mem_foldl_replace (table : List (Char × List Char)) :
    ∀ (l : List Char) (a : Char),
      a ∈ table.foldl (fun acc kv => replaceChar kv.1 kv.2 acc) l →
      a ∈ l ∨ ∃ kv, kv ∈ table ∧ a ∈ kv.2 := by
  induction table with
  | nil => intro l a h; exact Or.inl h
  | cons kv rest ih =>
    intro l a h
    simp only [List.foldl_cons] at h
    rcases ih _ _ h with h2 | ⟨kv2, hmem, hin⟩
    · rcases mem_replaceChar _ _ _ _ h2 with h3 | h3
      · exact Or.inr ⟨kv, List.mem_cons_self _ _, h3⟩
      · exact Or.inl h3
    · exact Or.inr ⟨kv2, List.mem_cons_of_mem _ hmem, hin⟩

theorem foldl_replace_not_mem (table : List (Char × List Char)) (l : List Char) (a : Char)
    (hl : a ∉ l) (hv : ∀ kv, kv ∈ table → a ∉ kv.2) :
    a ∉ table.foldl (fun acc kv => replaceChar kv.1 kv.2 acc) l := by
  intro h
  rcases mem_foldl_replace table l a h with h2 | ⟨kv, hmem, hin⟩
  · exact hl h2
  · exact hv kv hmem hin

theorem foldl_replace_key_not_mem :
    ∀ (table : List (Char × List Char)) (l : List Char) (k : Char) (v : List Char),
      (k, v) ∈ table → (∀ kv, kv ∈ table → k ∉ kv.2) →
      k ∉ table.foldl (fun acc kv => replaceChar kv.1 kv.2 acc) l := by
  intro table
  induction table with
  | nil => intro l k v hk; simp at hk
  | cons kv0 rest ih =>
    intro l k v hk hv
    obtain ⟨k0, v0⟩ := kv0
    simp only [List.foldl_cons]
    by_cases hkk : k0 = k
    · subst hkk
      exact foldl_replace_not_mem rest _ _
        (replaceChar_self_not_mem _ _ _ (hv (k0, v0) (List.mem_cons_self _ _)))
        (fun kv2 h2 => hv kv2 (List.mem_cons_of_mem _ h2))
    · rcases List.mem_cons.mp hk with heq | htail
      · exact absurd (congrArg Prod.fst heq).symm hkk
      · exact ih _ k v htail (fun kv2 h2 => hv kv2 (List.mem_cons_of_mem _ h2))

theorem foldl_replace_id (table : List (Char × List Char)) (l : List Char)
    (h : ∀ kv, kv ∈ table → kv.1 ∉ l) :
    table.foldl (fun acc kv => replaceChar kv.1 kv.2 acc) l = l := by
  induction table with
  | nil => rfl
  | cons kv rest ih =>
    simp only [List.foldl_cons]
    rw [replaceChar_eq_self _ _ _ (h kv (List.mem_cons_self _ _))]
    exact ih (fun kv2 h2 => h kv2 (List.mem_cons_of_mem _ h2))

/-- After the replacement loop, none of the dictionary's keys remains. -/
theorem applyReplacements_removes (l : List Char) (a : Char) (hk : a ∈ illegalKeys) :
    a ∉ applyReplacements l := by
  fin_cases hk <;>
  · first
    | exact foldl_replace_key_not_mem replacementTable l _ [' ', '-', ' '] (by decide) (by decide)
    | exact foldl_replace_key_not_mem replacementTable l _ [] (by decide) (by decide)
    | exact foldl_replace_key_not_mem replacementTable l _ [Char.ofNat 39] (by decide) (by decide)
    | exact foldl_replace_key_not_mem replacementTable l _ [' '] (by decide) (by decide)
    | exact foldl_replace_key_not_mem replacementTable l _ ['a', 'n', 'd'] (by decide) (by decide)

theorem mem_collapseOnce : ∀ (l : List Char) (a : Char), a ∈ collapseOnce l → a ∈ l
  | [], _, h => h
  | [_], _, h => h
  | c1 :: c2 :: rest, a, h => by
    simp only [collapseOnce] at h
    split at h
    · next hsp =>
      simp only [Bool.and_eq_true, decide_eq_true_eq] at hsp
      obtain ⟨h1, h2⟩ := hsp
      subst h1
      subst h2
      rcases List.mem_cons.mp h with h3 | h3
      · subst h3
        exact List.mem_cons_self _ _
      · exact List.mem_cons_of_mem _ (List.mem_cons_of_mem _ (mem_collapseOnce rest a h3))
    · rcases List.mem_cons.mp h with h3 | h3
      · subst h3
        exact List.mem_cons_self _ _
      · exact List.mem_cons_of_mem _ (mem_collapseOnce (c2 :: rest) a h3)

theorem collapseOnce_length_le : ∀ (l : List Char), (collapseOnce l).length ≤ l.length
  | [] => le_refl _
  | [_] => le_refl _
  | c1 :: c2 :: rest => by
    simp only [collapseOnce]
    split
    · have := collapseOnce_length_le rest
      simp only [List.length_cons]
      omega
    · have := collapseOnce_length_le (c2 :: rest)
      simp only [List.length_cons] at this ⊢
      omega

theorem collapseOnce_length_lt : ∀ (l : List Char), hasDS l = true → (collapseOnce l).length < l.length
  | [], h => by simp [hasDS] at h
  | [_], h => by simp [hasDS] at h
  | c1 :: c2 :: rest, h => by
    simp only [collapseOnce]
    split
    · have := collapseOnce_length_le rest
      simp only [List.length_cons]
      omega
    · next hsp =>
      have hds : hasDS (c2 :: rest) = true := by
        simp only [hasDS, Bool.or_eq_true] at h
        rcases h with hh | hh
        · exact absurd hh hsp
        · exact hh
      have := collapseOnce_length_lt (c2 :: rest) hds
      simp only [List.length_cons] at this ⊢
      omega

theorem hasDS_collapseFuel : ∀ (n : Nat) (l : List Char), l.length ≤ n →
    hasDS (collapseFuel n l) = false := by
  intro n
  induction n with
  | zero =>
    intro l h
    have h0 : l = [] := List.length_eq_zero.mp (Nat.le_zero.mp h)
    subst h0
    rfl
  | succ m ih =>
    intro l h
    simp only [collapseFuel]
    cases hb : hasDS l with
    | false =>
      rw [if_neg (by simp [hb])]
      exact hb
    | true =>
      rw [if_pos (by simp [hb])]
      exact ih _ (by have := collapseOnce_length_lt l hb; omega)

theorem collapseFuel_of_false (n : Nat) (l : List Char) (h : hasDS l = false) :
    collapseFuel n l = l := by
  cases n with
  | zero => rfl
  | succ m =>
    simp only [collapseFuel]
    rw [if_neg (by simp [h])]

theorem mem_collapseFuel : ∀ (n : Nat) (l : List Char) (a : Char),
    a ∈ collapseFuel n l → a ∈ l := by
  intro n
  induction n with
  | zero => intro l a h; exact h
  | succ m ih =>
    intro l a h
    simp only [collapseFuel] at h
    split at h
    · exact mem_collapseOnce l a (ih _ _ h)
    · exact h

theorem hasDS_cons_of (c : Char) (l : List Char) (h : hasDS l = true) :
    hasDS (c :: l) = true := by
  cases l with
  | nil => simp [hasDS] at h
  | cons c2 rest =>
    simp only [hasDS, Bool.or_eq_true]
    exact Or.inr h

theorem hasDS_append_left : ∀ (l1 l2 : List Char), hasDS l1 = true → hasDS (l1 ++ l2) = true
  | [], _, h => by simp [hasDS] at h
  | [_], _, h => by simp [hasDS] at h
  | c1 :: c2 :: rest, l2, h => by
    simp only [hasDS, Bool.or_eq_true] at h
    simp only [List.cons_append, hasDS, Bool.or_eq_true]
    rcases h with h | h
    · exact Or.inl h
    · refine Or.inr ?_
      have h2 := hasDS_append_left (c2 :: rest) l2 h
      simpa using h2

theorem hasDS_append_right (l1 l2 : List Char) (h : hasDS l2 = true) :
    hasDS (l1 ++ l2) = true := by
  induction l1 with
  | nil => simpa
  | cons c rest ih =>
    have h2 := hasDS_cons_of c (rest ++ l2) ih
    simpa using h2

theorem mem_dropWhile (p : Char → Bool) (l : List Char) (a : Char)
    (h : a ∈ l.dropWhile p) : a ∈ l := by
  induction l with
  | nil => simp at h
  | cons c rest ih =>
    rw [List.dropWhile_cons] at h
    split at h
    · exact List.mem_cons_of_mem _ (ih h)
    · exact h

theorem dropWhile_suffix_eq (p : Char → Bool) (l : List Char) :
    ∃ pre, pre ++ l.dropWhile p = l := by
  induction l with
  | nil => exact ⟨[], rfl⟩
  | cons c rest ih =>
    rw [List.dropWhile_cons]
    split
    · obtain ⟨pre, hp⟩ := ih
      exact ⟨c :: pre, by simp [hp]⟩
    · exact ⟨[], rfl⟩

theorem head_dropWhile_false (p : Char → Bool) :
    ∀ (l : List Char) (c : Char) (rest : List Char),
      l.dropWhile p = c :: rest → p c = false := by
  intro l
  induction l with
  | nil => intro c rest h; simp at h
  | cons c0 r ih =>
    intro c rest h
    rw [List.dropWhile_cons] at h
    split at h
    · exact ih c rest h
    · next hp =>
      cases h
      simpa using hp

theorem dropWhile_eq_self_of_head (p : Char → Bool) (l : List Char)
    (h : ∀ c rest, l = c :: rest → p c = false) : l.dropWhile p = l := by
  cases l with
  | nil => rfl
  | cons c rest =>
    rw [List.dropWhile_cons, if_neg]
    simp [h c rest rfl]

theorem stripR_prefix_eq (l : List Char) : ∃ post, stripR l ++ post = l := by
  obtain ⟨pre, hp⟩ := dropWhile_suffix_eq isPySpace l.reverse
  refine ⟨pre.reverse, ?_⟩
  have h2 := congrArg List.reverse hp
  simpa [stripR, List.reverse_append] using h2

theorem hasDS_stripL_false (l : List Char) (h : hasDS l = false) :
    hasDS (stripL l) = false := by
  obtain ⟨pre, hp⟩ := dropWhile_suffix_eq isPySpace l
  cases hb : hasDS (stripL l) with
  | false => rfl
  | true =>
    exfalso
    have h2 : hasDS l = true := by
      rw [← hp]
      exact hasDS_append_right pre _ hb
    rw [h2] at h
    cases h

theorem hasDS_stripR_false (l : List Char) (h : hasDS l = false) :
    hasDS (stripR l) = false := by
  obtain ⟨post, hp⟩ := stripR_prefix_eq l
  cases hb : hasDS (stripR l) with
  | false => rfl
  | true =>
    exfalso
    have h2 : hasDS l = true := by
      rw [← hp]
      exact hasDS_append_left _ _ hb
    rw [h2] at h
    cases h

theorem mem_stripR (l : List Char) (a : Char) (h : a ∈ stripR l) : a ∈ l := by
  have h2 : a ∈ l.reverse.dropWhile isPySpace := by
    simpa [stripR] using h
  have h3 := mem_dropWhile _ _ _ h2
  simpa using h3

theorem mem_pyStrip (l : List Char) (a : Char) (h : a ∈ pyStrip l) : a ∈ l :=
  mem_dropWhile _ _ _ (mem_stripR _ _ h)

theorem stripR_stripR (m : List Char) : stripR (stripR m) = stripR m := by
  have h : (stripR m).reverse.dropWhile isPySpace = (stripR m).reverse := by
    apply dropWhile_eq_self_of_head
    intro c rest h2
    have h3 : m.reverse.dropWhile isPySpace = c :: rest := by
      simpa [stripR] using h2
    exact head_dropWhile_false isPySpace m.reverse c rest h3
  show ((stripR m).reverse.dropWhile isPySpace).reverse = stripR m
  rw [h, List.reverse_reverse]

theorem stripL_pyStrip (l : List Char) : stripL (pyStrip l) = pyStrip l := by
  apply dropWhile_eq_self_of_head
  intro c rest hcr
  have hcr2 : stripR (stripL l) = c :: rest := hcr
  obtain ⟨post, hpost⟩ := stripR_prefix_eq (stripL l)
  rw [hcr2] at hpost
  apply head_dropWhile_false isPySpace l c (rest ++ post)
  have h4 : stripL l = c :: (rest ++ post) := by
    rw [← hpost]
    simp
  exact h4

theorem pyStrip_idem (l : List Char) : pyStrip (pyStrip l) = pyStrip l := by
  show stripR (stripL (pyStrip l)) = pyStrip l
  rw [stripL_pyStrip]
  show stripR (stripR (stripL l)) = pyStrip l
  rw [stripR_stripR]
  rfl

/-- No character of `clean_filename l` is one of the replaced characters. -/
theorem clean_filename_no_keys (l : List Char) (a : Char) (ha : a ∈ clean_filename l) :
    a ∉ illegalKeys := by
  intro hk
  have h1 : a ∈ collapse (applyReplacements l) := mem_pyStrip _ _ ha
  have h2 : a ∈ applyReplacements l := mem_collapseFuel _ _ _ h1
  exact applyReplacements_removes l a hk h2

/-- Claim C7, as stated, is false on the code: the NUL character (a control
character) passes through `clean_filename` untouched — only tab, newline
and carriage return are among the replaced characters, so "never contains
control characters" fails. -/
theorem c7_counterexample :
    clean_filename [Char.ofNat 0] = [Char.ofNat 0] ∧ (Char.ofNat 0).toNat < 32 := by
  constructor
  · decide
  · decide

/-- Claim C7, amended: `clean_filename` is deterministic and total (it is a
function), idempotent, its output never contains any of the replaced
characters `/ \ ? % * : | " < > . \t \n \r &` (in particular none of the
ten filesystem-illegal characters and no tab/newline/carriage return —
but other control characters may survive), and its output never contains
two consecutive spaces. -/
theorem c7_amended_sanitize (l : List Char) :
    clean_filename (clean_filename l) = clean_filename l ∧
    (∀ a, a ∈ clean_filename l → a ∉ illegalKeys) ∧
    hasDS (clean_filename l) = false := by
  have hkeys : ∀ a, a ∈ clean_filename l → a ∉ illegalKeys := clean_filename_no_keys l
  have hds : hasDS (clean_filename l) = false := by
    have h0 : hasDS (collapse (applyReplacements l)) = false :=
      hasDS_collapseFuel _ _ le_rfl
    show hasDS (stripR (stripL (collapse (applyReplacements l)))) = false
    exact hasDS_stripR_false _ (hasDS_stripL_false _ h0)
  refine ⟨?_, hkeys, hds⟩
  show pyStrip (collapse (applyReplacements (clean_filename l))) = clean_filename l
  have hid : applyReplacements (clean_filename l) = clean_filename l := by
    apply foldl_replace_id
    intro kv hkv hmem
    have hkl : kv.1 ∈ illegalKeys := by
      have hall : ∀ kv2, kv2 ∈ replacementTable → kv2.1 ∈ illegalKeys := by decide
      exact hall kv hkv
    exact hkeys kv.1 hmem hkl
  rw [hid]
  have hcoll : collapse (clean_filename l) = clean_filename l := by
    rw [collapse]
    exact collapseFuel_of_false _ _ hds
  rw [hcoll]
  show pyStrip (pyStrip (collapse (applyReplacements l))) = pyStrip (collapse (applyReplacements l))
  exact pyStrip_idem _

/-- Witness for C7: the amended theorem applied at a concrete input — the
slash is gone from the sanitized name. -/
theorem c7_witness : Char.ofNat 47 ∉ clean_filename ['a', '/', 'b'] :=
  fun h => (c7_amended_sanitize ['a', '/', 'b']).2.1 (Char.ofNat 47) h (by decide)

/-- Claim C9, amended: `update_path` recomputes a done flag only at nodes on
the walk whose name equals the path's final segment — in the normal case
just the terminal node.  For a two-segment path `d/x` (file `x` inside
directory `d`, with `d ≠ x`): the terminal node's done flag becomes
(its previous flag OR the explicit mark) AND the conjunction of its
previous children's done flags, while the parent directory `d`'s done flag
is left exactly as it was (false if `d` was just created) — marking a leaf
file done never cascades to the parent directory.  The cascade only
happens when `update_path` is later invoked on the directory's own path. -/
theorem c9_amended_no_cascade (t : PNode) (d x : String) (mark isdir prune : Bool)
    (cp : Option String) (hdx : d ≠ x)
    (h1 : ∀ c, childNode t d = some c → c.name = d)
    (h2 : ∀ c cx, childNode t d = some c → childNode c x = some cx → cx.name = x) :
    doneOf (childNode (update_path t [d, x] mark isdir prune cp) d) =
      doneOf (childNode t d) ∧
    doneOf ((childNode (update_path t [d, x] mark isdir prune cp) d).bind
        (fun c => childNode c x)) =
      ((doneOf ((childNode t d).bind (fun c => childNode c x)) || mark) &&
        childrenAllDone ((childNode t d).bind (fun c => childNode c x))) := by
  obtain ⟨nm, dn, cpo, cs⟩ := t
  rcases hcd : lookupChild cs d with _ | c
  · constructor <;>
      simp [update_path, updateWalk, childNode, PNode.children, PNode.name, PNode.done,
            doneOf, childrenAllDone, initChild, endUpdate, setChild, lookupChild, hcd, hdx,
            lookupChild_setChild_self]
  · have hname : c.name = d := h1 c hcd
    obtain ⟨n2, d2, cp2, cs2⟩ := c
    simp only [PNode.name] at hname
    subst hname
    rcases hcx : lookupChild cs2 x with _ | cx
    · constructor <;>
        simp [update_path, updateWalk, childNode, PNode.children, PNode.name, PNode.done,
              doneOf, childrenAllDone, initChild, endUpdate, setChild, lookupChild, hcd, hcx,
              hdx, lookupChild_setChild_self]
    · have hnx : cx.name = x := h2 _ cx hcd hcx
      obtain ⟨n3, d3, cp3, cs3⟩ := cx
      simp only [PNode.name] at hnx
      subst hnx
      constructor <;>
        simp [update_path, updateWalk, childNode, PNode.children, PNode.name, PNode.done,
              doneOf, childrenAllDone, initChild, endUpdate, setChild, lookupChild, hcd, hcx,
              hdx, lookupChild_setChild_self]

/-- Witness for C9: the amended theorem applied to an empty tree: marking
file `d/x` done creates `d` with done still false while the terminal `x`
becomes done. -/
theorem c9_witness :
    doneOf (childNode (update_path rootNode ["d", "x"] true false true none) "d") =
      doneOf (childNode rootNode "d") ∧
    doneOf ((childNode (update_path rootNode ["d", "x"] true false true none) "d").bind
        (fun c => childNode c "x")) = true := by
  have h := c9_amended_no_cascade rootNode "d" "x" true false true none
    (by decide)
    (fun c hc => by simp [childNode, rootNode, PNode.children, lookupChild] at hc)
    (fun c cx hc hcx => by simp [childNode, rootNode, PNode.children, lookupChild] at hc)
  refine ⟨h.1, ?_⟩
  rw [h.2]
  decide
